import Mathlib

/-!
Verification of the RA.Aid agent execution/retry core and expert tooling.

The development shallowly embeds two groups of program parts:

* the agent execution/retry core (error classifier `_handle_api_error`,
  retry orchestrator `run_agent_with_retry`, history trimmer
  `state_modifier`, depth counters) — its Python module is not present in
  the repository snapshot, only its test suite, so these definitions are
  modelled from the specification's § 4.1–4.7;
* the expert tooling (`emit_expert_context`, `ask_expert`,
  `read_files_with_limit`) — translated directly from
  `ra_aid/tools/expert.py`.
-/

namespace RAAid

/-! ## String containment helpers -/

/-- Boolean test that `pat` is a prefix of `l` (character lists). -/
def listPrefixOf : List Char → List Char → Bool
  | [], _ => true
  | _ :: _, [] => false
  | a :: as, b :: bs => a == b && listPrefixOf as bs

/-- Boolean test that `pat` occurs contiguously inside `l`. -/
def subListOf (pat : List Char) : List Char → Bool
  | [] => pat.isEmpty
  | c :: rest => listPrefixOf pat (c :: rest) || subListOf pat rest

/-- String containment: `pat` occurs contiguously inside `s`. -/
def containsSub (s pat : String) : Bool :=
  subListOf pat.data s.data

/-- Lower-casing of one ASCII character, as Python's `str.lower` does. -/
def lowerChar (c : Char) : Char :=
  if 65 ≤ c.toNat ∧ c.toNat ≤ 90 then Char.ofNat (c.toNat + 32) else c

/-- Lower-casing of a message, as Python's `str.lower` on ASCII text. -/
def lowerStr (s : String) : String :=
  ⟨s.data.map lowerChar⟩

/-! ## Error model and classifier (spec § 4.5) -/

/-- Modelled from the spec: the classes of exceptions the classifier
distinguishes — the narrowly recognized "value error" category, the
malformed-request class, the provider API-error class, the provider
resource-exhaustion class, and everything else. -/
inductive ErrorKind
  | valueError
  | badRequest
  | apiError
  | resourceExhausted
  | generic
deriving DecidableEq, Repr

/-- Modelled from the spec: a raised failure as the classifier sees it —
its exception class, optional `status_code` / `http_status` attributes,
and its message text. -/
structure ApiError where
  kind : ErrorKind
  status_code : Option Nat
  http_status : Option Nat
  message : String
deriving DecidableEq, Repr

/-- Modelled from the spec (§ 4.5 rule 2): the error indicates rate
limiting or transient capacity exhaustion — a status/HTTP-status
attribute equal to 429, or message text containing "429", "rate limit",
"too many requests", "quota exceeded", or both the words "rate" and
"limit", or a provider resource-exhaustion exception type. -/
def is_transient (e : ApiError) : Bool :=
  let msg := lowerStr e.message
  e.status_code == some 429 || e.http_status == some 429 ||
  containsSub msg "429" || containsSub msg "rate limit" ||
  containsSub msg "too many requests" || containsSub msg "quota exceeded" ||
  (containsSub msg "rate" && containsSub msg "limit") ||
  e.kind == .resourceExhausted

/-- Modelled from the spec (§ 4.5 rule 1): the error signals an explicit
unretryable condition — a malformed-request class of error, or an API
error whose message indicates a client-side bad request. -/
def is_unretryable (e : ApiError) : Bool :=
  e.kind == .badRequest ||
  (e.kind == .apiError &&
    (containsSub (lowerStr e.message) "bad request" ||
     containsSub (lowerStr e.message) "400"))

/-- Modelled from the spec: the observable outcome of one call to the
classifier — block for `delay` then return normally (retry), raise the
fatal "max retries exceeded" failure, re-raise the error unchanged, or
classify it Unretryable (no sleep, caller marks the run crashed). -/
inductive HandleOutcome
  | sleepReturn (delay : Nat)
  | raiseMaxRetries
  | reraise
  | unretryable
deriving DecidableEq, Repr

/-- Modelled from the spec (§ 4.5): the error classifier and retry policy
`_handle_api_error(error, attempt, max_retries, base_delay)`, its decision
table evaluated in priority order; the Retryable-Transient branch raises
when `attempt + 1 >= max_retries` and otherwise computes the exponential
backoff delay `base_delay * 2 ^ attempt`. -/
def _handle_api_error (e : ApiError) (attempt max_retries base_delay : Nat) :
    HandleOutcome :=
  if is_unretryable e then .unretryable
  else if is_transient e then
    if max_retries ≤ attempt + 1 then .raiseMaxRetries
    else .sleepReturn (base_delay * 2 ^ attempt)
  else if e.kind == .valueError then .reraise
  else if max_retries ≤ attempt + 1 then .raiseMaxRetries
  else .sleepReturn (base_delay * 2 ^ attempt)

/-! ## Run state and retry orchestrator (spec § 4.1, § 4.7) -/

/-- Modelled from the spec: the shared run context of one logical run —
the crash latch with its stored message, and the asynchronous
interrupt-requested flag observed at checkpoints. -/
structure RunState where
  agent_has_crashed : Bool
  agent_crashed_message : String
  interrupt_requested : Bool
deriving DecidableEq, Repr

/-- Modelled from the spec (§ 4.1): `mark_crashed(message)` sets the
crash latch and stores the message exactly once; subsequent calls within
the same crashed context are no-ops. -/
def mark_agent_crashed (st : RunState) (msg : String) : RunState :=
  if st.agent_has_crashed then st
  else { st with agent_has_crashed := true, agent_crashed_message := msg }

/-- Modelled from the spec (§ 4.6): one pass of the Stream Runner either
returns normally or raises an error. -/
inductive StreamResult
  | ok
  | err (e : ApiError)
deriving DecidableEq, Repr

/-- Modelled from the spec (§ 4.7): the terminal states of one
orchestrator call — `Completed`, `Crashed` (with the user-facing
message), `Interrupted`, `Exhausted` (the classifier's fatal
max-retries failure), or a propagated re-raised error. -/
inductive RunOutcome
  | completed
  | crashed (msg : String)
  | interrupted
  | exhausted
  | propagated (e : ApiError)
deriving DecidableEq, Repr

/-- Modelled from the spec (§ 4.7 step 2): the `Running` loop of the
retry orchestrator. `behavior` gives the Stream Runner's result on each
attempt; the triple returned is the terminal outcome, the final run
state, and the number of Stream Runner invocations. The loop checks the
interrupt checkpoint, then the crash latch, then invokes the Stream
Runner, passing any error to `_handle_api_error`; on the Unretryable
path it marks the run crashed and returns a message embedding the fixed
crash reason, on the transient path it increments the attempt counter
and continues. -/
def run_agent_loop (behavior : Nat → StreamResult) (max_retries base_delay : Nat)
    (st : RunState) (attempt count : Nat) : RunOutcome × RunState × Nat :=
  if h : attempt < max_retries then
    if st.interrupt_requested then
      (.interrupted, { st with interrupt_requested := false }, count)
    else if st.agent_has_crashed then
      (.crashed ("Agent has crashed: " ++ st.agent_crashed_message), st, count)
    else
      match behavior attempt with
      | .ok => (.completed, st, count + 1)
      | .err e =>
        match _handle_api_error e attempt max_retries base_delay with
        | .unretryable =>
          let st2 := mark_agent_crashed st ("Unretryable error: " ++ e.message)
          (.crashed ("Agent has crashed: " ++ st2.agent_crashed_message), st2, count + 1)
        | .sleepReturn _ =>
          run_agent_loop behavior max_retries base_delay st (attempt + 1) (count + 1)
        | .raiseMaxRetries => (.exhausted, st, count + 1)
        | .reraise => (.propagated e, st, count + 1)
  else (.exhausted, st, count)
termination_by max_retries - attempt
decreasing_by omega

/-- Modelled from the spec (§ 4.7): `run_agent_with_retry` resets the
attempt counter to 0 and runs the `Running` loop to a terminal state. -/
def run_agent_with_retry (behavior : Nat → StreamResult)
    (max_retries base_delay : Nat) (st : RunState) :
    RunOutcome × RunState × Nat :=
  run_agent_loop behavior max_retries base_delay st 0 0

/-- The bad-request error thrown by the test suite's stream runner. -/
def badRequestError : ApiError :=
  ⟨.badRequest, none, none, "400 Bad Request: Invalid input"⟩

/-- A stream runner that raises the bad-request error on every attempt. -/
def badRequestBehavior : Nat → StreamResult :=
  fun _ => .err badRequestError

/-- A stream runner that returns normally on every attempt. -/
def okBehavior : Nat → StreamResult :=
  fun _ => .ok

/-- A fresh run state: not crashed, no interrupt pending. -/
def freshRunState : RunState :=
  ⟨false, "", false⟩

/-- A run state already crashed with the test suite's message. -/
def crashedRunState : RunState :=
  ⟨true, "Test crash message", false⟩

/-! ## History trimmer (spec § 4.3) -/

/-- Cumulative estimated token cost of a message sequence, for an
arbitrary per-message estimator `est` (spec § 4.2 leaves the estimator
abstract beyond determinism). -/
def messagesCost (est : α → Nat) (l : List α) : Nat :=
  (l.map est).sum

/-- Modelled from the spec (§ 4.3 output clause b): the maximal-length
suffix of the remaining messages whose cumulative estimated token cost
does not exceed `budget`. -/
def maxFittingSuffix (est : α → Nat) (budget : Nat) : List α → List α
  | [] => []
  | m :: rest =>
    if messagesCost est (m :: rest) ≤ budget then m :: rest
    else maxFittingSuffix est budget rest

/-- Modelled from the spec (§ 4.3): the history trimmer
`state_modifier` — keep the first (system) message, keep the
maximal-length suffix of the remaining messages fitting in the budget
left over after the first message, and, when even that suffix is empty
but the history has at least two messages, retain the single most recent
message anyway. -/
def state_modifier (est : α → Nat) (budget : Nat) (msgs : List α) : List α :=
  match msgs with
  | [] => []
  | first :: rest =>
    match maxFittingSuffix est (budget - est first) rest, rest.getLast? with
    | [], some last => [first, last]
    | kept, _ => first :: kept

/-! ## Agent depth scoping (spec § 4.1) -/

/-- Modelled from the spec (§ 4.1 / tests): `_increment_agent_depth`
adds one to the shared `agent_depth` counter. -/
def _increment_agent_depth (d : Int) : Int :=
  d + 1

/-- Modelled from the spec (§ 4.1 / tests): `_decrement_agent_depth`
subtracts one from the shared `agent_depth` counter. -/
def _decrement_agent_depth (d : Int) : Int :=
  d - 1

/-- Modelled from the spec: the shape of the work wrapped by the
Run-State Registry's scopes — a leaf that returns normally or raises, a
scoped block (enter scope, run body, exit scope on every path), and
sequencing that short-circuits when its first part raises. -/
inductive AgentWork
  | leaf (ok : Bool)
  | scope (body : AgentWork)
  | seq (a b : AgentWork)

/-- Modelled from the spec (§ 4.1): run the wrapped work against a depth
counter. A scoped block increments the depth on entry and decrements it
on exit via a guaranteed-release pattern, so the decrement runs whether
or not the body raised; `seq` stops at the first raise. Returns whether
the work completed normally, and the final depth. -/
def runAgentWork : AgentWork → Int → Bool × Int
  | .leaf ok, d => (ok, d)
  | .scope body, d =>
    let r := runAgentWork body (_increment_agent_depth d)
    (r.1, _decrement_agent_depth r.2)
  | .seq a b, d =>
    let r := runAgentWork a d
    if r.1 then runAgentWork b r.2 else r

/-! ## Expert tooling (`ra_aid/tools/expert.py`) -/

/-- The module-level `expert_context` store: additional textual context
and file paths to include. -/
structure ExpertContext where
  text : List String
  files : List String
deriving DecidableEq, Repr

/-- `emit_expert_context(context)`: append the context string to the
store's `text` list and return the tool's confirmation message. -/
def emit_expert_context (ctx : ExpertContext) (context : String) :
    ExpertContext × String :=
  ({ ctx with text := ctx.text ++ [context] }, "Context added.")

/-- The state-and-query part of `ask_expert(question)`, translated from
`expert.py` lines 154–226: after displaying the question panel the
function clears `expert_context["text"]` and `expert_context["files"]`,
then builds `query_parts` — related files, research notes, key
snippets, key facts, the additional-context section guarded by
`if expert_context["text"]:` (read from the store as it is at that
point, i.e. after the clearing), the question, and the fixed
requirements — and joins them with newlines. Returns the full query
together with the store as ask_expert leaves it. -/
def ask_expert_query (ctx : ExpertContext) (question : String)
    (relatedContents researchNotes keySnippets keyFacts : String) :
    String × ExpertContext :=
  let cleared : ExpertContext := { ctx with text := [], files := [] }
  let parts0 : List String :=
    if relatedContents ≠ "" then ["# Related Files", relatedContents] else []
  let parts1 := parts0 ++
    (if researchNotes ≠ "" then ["# Research Notes", researchNotes] else [])
  let parts2 := parts1 ++
    (if keySnippets ≠ "" then ["# Key Snippets", keySnippets] else [])
  let parts3 := parts2 ++
    (if keyFacts ≠ "" then ["# Key Facts About This Project", keyFacts] else [])
  let parts4 := parts3 ++
    (if cleared.text ≠ [] then
      ["\n# Additional Context", String.intercalate "\n" cleared.text]
    else [])
  let parts5 := parts4 ++ ["# Question", question]
  let parts6 := parts5 ++
    ["\n # Addidional Requirements", "**DO NOT OVERTHINK**",
     "**DO NOT OVERCOMPLICATE**"]
  (String.intercalate "\n" parts6, cleared)

/-- The truncation notice `read_files_with_limit` inserts when the line
limit is reached. -/
def truncationNotice (max_lines : Nat) : String :=
  "\n... truncated after " ++ toString max_lines ++ " lines ..."

/-- The inner loop of `read_files_with_limit` over one file's lines,
translated from `expert.py` lines 101–108: `cnt` is Python's
`total_lines + i`; while `cnt < max_lines` the line is kept and `cnt`
advances, and at the first index with `cnt >= max_lines` the truncation
notice is appended and reading stops. -/
def fileContent (max_lines : Nat) : Nat → List String → List String
  | _, [] => []
  | cnt, line :: rest =>
    if max_lines ≤ cnt then [truncationNotice max_lines]
    else line :: fileContent max_lines (cnt + 1) rest

/-- The outer loop of `read_files_with_limit` over the file paths,
translated from `expert.py` lines 91–119. The filesystem is a map from
path to `Option` of the file's lines; `none` covers both a missing path
and a read error, which the source skips with `continue`. A file whose
collected `file_content` is non-empty contributes a header and its
joined content, and advances `total_lines` by the length of
`file_content` (which counts the truncation notice too, as the source
does). -/
def readFilesLoop (fs : String → Option (List String)) (max_lines : Nat) :
    Nat → List String → List String
  | _, [] => []
  | total, path :: rest =>
    match fs path with
    | none => readFilesLoop fs max_lines total rest
    | some lines =>
      let fc := fileContent max_lines total lines
      if fc.isEmpty then readFilesLoop fs max_lines total rest
      else ("\n## File: " ++ path ++ "\n") :: String.join fc ::
        readFilesLoop fs max_lines (total + fc.length) rest

/-- `read_files_with_limit(file_paths, max_lines)`: join the pieces
produced by the loop starting from `total_lines = 0`. -/
def read_files_with_limit (fs : String → Option (List String))
    (file_paths : List String) (max_lines : Nat) : String :=
  String.join (readFilesLoop fs max_lines 0 file_paths)

/-- The number of content lines (truncation notices excluded) that
`readFilesLoop` keeps, following the same `total_lines` accounting as
the source: each readable file with non-empty `file_content` keeps
`min lines.length (max_lines - total)` of its own lines. -/
def keptContentLines (fs : String → Option (List String)) (max_lines : Nat) :
    Nat → List String → Nat
  | _, [] => 0
  | total, path :: rest =>
    match fs path with
    | none => keptContentLines fs max_lines total rest
    | some lines =>
      let fc := fileContent max_lines total lines
      if fc.isEmpty then keptContentLines fs max_lines total rest
      else min lines.length (max_lines - total) +
        keptContentLines fs max_lines (total + fc.length) rest

/-- A small filesystem for concrete evaluation: two readable files and
nothing else. -/
def demoFS : String → Option (List String) :=
  fun p =>
    if p = "a.txt" then some ["l1\n", "l2\n", "l3\n"]
    else if p = "b.txt" then some ["m1\n", "m2\n"] else none

end RAAid

namespace RAAid

/-! ## Substring lemmas -/

/-- A prefix check survives appending on the right. -/
theorem listPrefixOf_append (pat l l' : List Char)
    (h : listPrefixOf pat l = true) : listPrefixOf pat (l ++ l') = true := by
  induction pat generalizing l with
  | nil => simp [listPrefixOf]
  | cons a as ih =>
    cases l with
    | nil => simp [listPrefixOf] at h
    | cons b bs =>
      simp only [listPrefixOf, Bool.and_eq_true] at h
      simp only [List.cons_append, listPrefixOf, Bool.and_eq_true]
      exact ⟨h.1, ih bs h.2⟩

/-- A substring occurrence survives appending on the right. -/
theorem subListOf_append_right (pat l l' : List Char)
    (h : subListOf pat l = true) : subListOf pat (l ++ l') = true := by
  induction l with
  | nil =>
    simp only [subListOf, List.isEmpty_iff] at h
    subst h
    cases l' with
    | nil => simp [subListOf]
    | cons c cs => simp [subListOf, listPrefixOf]
  | cons c cs ih =>
    simp only [subListOf, Bool.or_eq_true] at h
    rcases h with h | h
    · simp only [List.cons_append, subListOf, Bool.or_eq_true]
      exact Or.inl (listPrefixOf_append pat (c :: cs) l' h)
    · simp only [List.cons_append, subListOf, Bool.or_eq_true]
      exact Or.inr (ih h)

/-- Every list is a prefix of itself. -/
theorem listPrefixOf_refl (l : List Char) : listPrefixOf l l = true := by
  induction l with
  | nil => simp [listPrefixOf]
  | cons a as ih => simp [listPrefixOf, ih]

/-- A list occurs as a substring at the end of any extension of itself. -/
theorem subListOf_append_left (pat l : List Char) :
    subListOf pat (l ++ pat) = true := by
  induction l with
  | nil =>
    cases pat with
    | nil => simp [subListOf]
    | cons c cs =>
      simp only [List.nil_append, subListOf, Bool.or_eq_true]
      exact Or.inl (listPrefixOf_refl (c :: cs))
  | cons c cs ih =>
    simp only [List.cons_append, subListOf, Bool.or_eq_true]
    exact Or.inr ih

/-- String-level corollary: a string contains any of its own suffixes. -/
theorem containsSub_append_self (s t : String) :
    containsSub (s ++ t) t = true := by
  simp only [containsSub, String.data_append]
  exact subListOf_append_left t.data s.data

/-- The orchestrator's crash message for an unretryable error contains
the text "Unretryable error", whatever the underlying message. -/
theorem crashedMsg_contains_unretryable (m : String) :
    containsSub ("Agent has crashed: " ++ ("Unretryable error: " ++ m))
      "Unretryable error" = true := by
  simp only [containsSub, String.data_append]
  rw [← List.append_assoc]
  exact subListOf_append_right _ _ _ (by decide)

/-! ## Theorems about the classifier -/

/-- Claim C1: a transient (rate-limit / capacity-exhaustion) error that
does not match the unretryable patterns is classified Retryable-Transient
when `attempt + 1 < max_retries`: the classifier blocks for
`base_delay * 2 ^ attempt` and returns normally, letting the caller retry. -/
theorem handle_api_error_transient_backoff (e : ApiError)
    (attempt max_retries base_delay : Nat)
    (h1 : is_unretryable e = false) (h2 : is_transient e = true)
    (h3 : attempt + 1 < max_retries) :
    _handle_api_error e attempt max_retries base_delay =
      HandleOutcome.sleepReturn (base_delay * 2 ^ attempt) := by
  simp [_handle_api_error, h1, h2]
  omega

/-- Witness for C1: the error with `status_code = 429` from the test
suite, at `attempt = 0`, `max_retries = 5`, `base_delay = 1`, sleeps for
`1 * 2 ^ 0` and returns. -/
theorem handle_api_error_transient_backoff_witness :
    is_unretryable ⟨.generic, some 429, none, "Rate limited"⟩ = false ∧
    is_transient ⟨.generic, some 429, none, "Rate limited"⟩ = true ∧
    0 + 1 < 5 ∧
    _handle_api_error ⟨.generic, some 429, none, "Rate limited"⟩ 0 5 1 =
      HandleOutcome.sleepReturn (1 * 2 ^ 0) :=
  ⟨by decide, by decide, by decide,
    handle_api_error_transient_backoff ⟨.generic, some 429, none, "Rate limited"⟩
      0 5 1 (by decide) (by decide) (by decide)⟩

/-- Claim C2: a transient error with `attempt + 1 >= max_retries` makes
the classifier raise the fatal "max retries exceeded" failure instead of
sleeping and returning. -/
theorem handle_api_error_max_retries (e : ApiError)
    (attempt max_retries base_delay : Nat)
    (h1 : is_unretryable e = false) (h2 : is_transient e = true)
    (h3 : max_retries ≤ attempt + 1) :
    _handle_api_error e attempt max_retries base_delay =
      HandleOutcome.raiseMaxRetries := by
  simp [_handle_api_error, h1, h2, h3]

/-- Witness for C2: the test-suite call with message "error code 429" at
`attempt = max_retries - 1 = 4`, `max_retries = 5`, raises. -/
theorem handle_api_error_max_retries_witness :
    is_unretryable ⟨.generic, none, none, "error code 429"⟩ = false ∧
    is_transient ⟨.generic, none, none, "error code 429"⟩ = true ∧
    5 ≤ 4 + 1 ∧
    _handle_api_error ⟨.generic, none, none, "error code 429"⟩ 4 5 1 =
      HandleOutcome.raiseMaxRetries :=
  ⟨by decide, by decide, by decide,
    handle_api_error_max_retries ⟨.generic, none, none, "error code 429"⟩
      4 5 1 (by decide) (by decide) (by decide)⟩

/-- Claim C3: a recognized value error whose message matches neither the
unretryable nor any transient pattern is re-raised immediately and
unchanged — no sleep, no retry. -/
theorem handle_api_error_value_error_reraise (e : ApiError)
    (attempt max_retries base_delay : Nat)
    (hk : e.kind = .valueError)
    (h1 : is_unretryable e = false) (h2 : is_transient e = false) :
    _handle_api_error e attempt max_retries base_delay =
      HandleOutcome.reraise := by
  simp [_handle_api_error, h1, h2, hk]

/-- Witness for C3: the test-suite `ValueError("some unrelated error")`
is re-raised. -/
theorem handle_api_error_value_error_reraise_witness :
    (ApiError.mk .valueError none none "some unrelated error").kind = .valueError ∧
    is_unretryable ⟨.valueError, none, none, "some unrelated error"⟩ = false ∧
    is_transient ⟨.valueError, none, none, "some unrelated error"⟩ = false ∧
    _handle_api_error ⟨.valueError, none, none, "some unrelated error"⟩ 0 5 1 =
      HandleOutcome.reraise :=
  ⟨by decide, by decide, by decide,
    handle_api_error_value_error_reraise ⟨.valueError, none, none, "some unrelated error"⟩
      0 5 1 (by decide) (by decide) (by decide)⟩

/-! ## Theorems about the retry orchestrator -/

/-- Claim C4: when the stream runner raises an unretryable
(bad-request-style) error on the first attempt, the orchestrator invokes
the stream runner exactly once, marks the run crashed with the fixed
descriptive message, does not propagate the raw exception, and the
returned text contains "Unretryable error". -/
theorem run_agent_with_retry_unretryable (behavior : Nat → StreamResult)
    (e : ApiError) (max_retries base_delay : Nat) (st : RunState)
    (hc : st.agent_has_crashed = false) (hi : st.interrupt_requested = false)
    (hm : 0 < max_retries) (hb : behavior 0 = .err e)
    (hu : is_unretryable e = true) :
    run_agent_with_retry behavior max_retries base_delay st =
      (.crashed ("Agent has crashed: " ++ ("Unretryable error: " ++ e.message)),
        { st with agent_has_crashed := true,
                  agent_crashed_message := "Unretryable error: " ++ e.message },
        1) ∧
    containsSub ("Agent has crashed: " ++ ("Unretryable error: " ++ e.message))
      "Unretryable error" = true := by
  refine ⟨?_, crashedMsg_contains_unretryable e.message⟩
  unfold run_agent_with_retry run_agent_loop
  rw [dif_pos hm]
  simp [hi, hc, hb, _handle_api_error, hu, mark_agent_crashed]

/-- Witness for C4: the test-suite scenario — fresh state, stream runner
raising `ToolExecutionError("400 Bad Request: Invalid input")`,
`max_retries = 5`: exactly one invocation, run crashed, result text
contains "Unretryable error". -/
theorem run_agent_with_retry_unretryable_witness :
    freshRunState.agent_has_crashed = false ∧
    freshRunState.interrupt_requested = false ∧
    0 < 5 ∧
    badRequestBehavior 0 = .err badRequestError ∧
    is_unretryable badRequestError = true ∧
    (run_agent_with_retry badRequestBehavior 5 1 freshRunState =
      (.crashed ("Agent has crashed: " ++ ("Unretryable error: " ++ badRequestError.message)),
        { freshRunState with
            agent_has_crashed := true,
            agent_crashed_message := "Unretryable error: " ++ badRequestError.message },
        1) ∧
      containsSub ("Agent has crashed: " ++ ("Unretryable error: " ++ badRequestError.message))
        "Unretryable error" = true) :=
  ⟨rfl, rfl, by decide, rfl, by decide,
    run_agent_with_retry_unretryable badRequestBehavior badRequestError 5 1
      freshRunState rfl rfl (by decide) rfl (by decide)⟩

/-- Claim C5: when the run context is already crashed at the top of the
loop, the Stream Runner is never invoked (zero invocations) and the text
returned to the caller contains the stored crash message. -/
theorem run_agent_with_retry_crash_short_circuit (behavior : Nat → StreamResult)
    (max_retries base_delay : Nat) (st : RunState)
    (hc : st.agent_has_crashed = true) (hi : st.interrupt_requested = false)
    (hm : 0 < max_retries) :
    run_agent_with_retry behavior max_retries base_delay st =
      (.crashed ("Agent has crashed: " ++ st.agent_crashed_message), st, 0) ∧
    containsSub ("Agent has crashed: " ++ st.agent_crashed_message)
      st.agent_crashed_message = true := by
  refine ⟨?_, containsSub_append_self _ _⟩
  unfold run_agent_with_retry run_agent_loop
  rw [dif_pos hm]
  simp [hi, hc]

/-- Witness for C5: the test-suite scenario — a state crashed with
"Test crash message": zero stream-runner invocations and the returned
text contains the stored crash message. -/
theorem run_agent_with_retry_crash_short_circuit_witness :
    crashedRunState.agent_has_crashed = true ∧
    crashedRunState.interrupt_requested = false ∧
    0 < 3 ∧
    (run_agent_with_retry okBehavior 3 1 crashedRunState =
      (.crashed ("Agent has crashed: " ++ crashedRunState.agent_crashed_message),
        crashedRunState, 0) ∧
      containsSub ("Agent has crashed: " ++ crashedRunState.agent_crashed_message)
        crashedRunState.agent_crashed_message = true) :=
  ⟨rfl, rfl, by decide,
    run_agent_with_retry_crash_short_circuit okBehavior 3 1 crashedRunState
      rfl rfl (by decide)⟩

/-! ## Lemmas about the history trimmer -/

/-- The element named by `getLast?` is a member of the list. -/
theorem mem_of_getLast_opt {α : Type} {l : List α} {a : α}
    (h : l.getLast? = some a) : a ∈ l := by
  obtain ⟨hne, rfl⟩ := List.mem_getLast?_eq_getLast (l := l) (x := a) (by rw [h]; rfl)
  exact List.getLast_mem hne

/-- A non-empty suffix determines the last element of the whole list. -/
theorem getLast_opt_of_suffix {α : Type} {l₁ l₂ : List α}
    (h : l₁ <:+ l₂) (hne : l₁ ≠ []) : l₂.getLast? = l₁.getLast? := by
  obtain ⟨pre, rfl⟩ := h
  rw [List.getLast?_append]
  cases hl : l₁.getLast? with
  | none =>
    cases l₁ with
    | nil => exact absurd rfl hne
    | cons b t =>
      obtain ⟨x, hx⟩ := Option.isSome_iff_exists.mp
        (List.getLast?_isSome.mpr (by simp : (b :: t : List α) ≠ []))
      rw [hl] at hx
      cases hx
  | some x => rfl

/-- `maxFittingSuffix` returns a suffix of its input. -/
theorem maxFittingSuffix_suffix {α : Type} (est : α → Nat) (b : Nat)
    (l : List α) : maxFittingSuffix est b l <:+ l := by
  induction l with
  | nil => exact List.suffix_refl []
  | cons m rest ih =>
    by_cases h : messagesCost est (m :: rest) ≤ b
    · rw [maxFittingSuffix, if_pos h]
    · rw [maxFittingSuffix, if_neg h]
      exact ih.trans (List.suffix_cons m rest)

/-- The suffix returned by `maxFittingSuffix` fits in the budget. -/
theorem maxFittingSuffix_cost {α : Type} (est : α → Nat) (b : Nat)
    (l : List α) : messagesCost est (maxFittingSuffix est b l) ≤ b := by
  induction l with
  | nil => simp [maxFittingSuffix, messagesCost]
  | cons m rest ih =>
    by_cases h : messagesCost est (m :: rest) ≤ b
    · rw [maxFittingSuffix, if_pos h]
      exact h
    · rw [maxFittingSuffix, if_neg h]
      exact ih

/-- No longer suffix of the input fits in the budget: `maxFittingSuffix`
is maximal in length among fitting suffixes. -/
theorem maxFittingSuffix_maximal {α : Type} (est : α → Nat) (b : Nat)
    (l : List α) (t : List α) (ht : t <:+ l)
    (hc : messagesCost est t ≤ b) :
    t.length ≤ (maxFittingSuffix est b l).length := by
  induction l with
  | nil =>
    rw [List.suffix_nil.mp ht]
    simp [maxFittingSuffix]
  | cons m rest ih =>
    by_cases h : messagesCost est (m :: rest) ≤ b
    · rw [maxFittingSuffix, if_pos h]
      exact ht.length_le
    · rw [maxFittingSuffix, if_neg h]
      rcases List.suffix_cons_iff.mp ht with rfl | ht2
      · exact absurd hc h
      · exact ih ht2

/-- When the whole list fits in the budget, `maxFittingSuffix` returns
it unchanged. -/
theorem maxFittingSuffix_of_cost_le {α : Type} (est : α → Nat) (b : Nat)
    (l : List α) (h : messagesCost est l ≤ b) :
    maxFittingSuffix est b l = l := by
  cases l with
  | nil => rfl
  | cons m rest => rw [maxFittingSuffix, if_pos h]

/-- Claim C6: for a history with first element `s` and a positive
budget, the trimmer returns a list that starts with `s`, is a
subsequence of the input in original order, includes (as a suffix) the
maximal-length suffix of the remaining messages whose cumulative
estimated cost fits the budget left after the first message, and equals
the input unchanged when the whole history's estimated cost is at most
the budget. -/
theorem state_modifier_trim_spec {α : Type} (est : α → Nat) (s : α)
    (rest : List α) (budget : Nat) (hb : 0 < budget) :
    (state_modifier est budget (s :: rest)).head? = some s ∧
    List.Sublist (state_modifier est budget (s :: rest)) (s :: rest) ∧
    maxFittingSuffix est (budget - est s) rest <:+ rest ∧
    messagesCost est (maxFittingSuffix est (budget - est s) rest) ≤ budget - est s ∧
    (∀ t, t <:+ rest → messagesCost est t ≤ budget - est s →
      t.length ≤ (maxFittingSuffix est (budget - est s) rest).length) ∧
    maxFittingSuffix est (budget - est s) rest <:+ state_modifier est budget (s :: rest) ∧
    (messagesCost est (s :: rest) ≤ budget →
      state_modifier est budget (s :: rest) = s :: rest) := by
  refine ⟨?_, ?_, maxFittingSuffix_suffix est _ rest, maxFittingSuffix_cost est _ rest,
    fun t ht hc => maxFittingSuffix_maximal est _ rest t ht hc, ?_, ?_⟩
  · cases hk : maxFittingSuffix est (budget - est s) rest with
    | nil => cases hl : rest.getLast? <;> simp [state_modifier, hk, hl]
    | cons k ks => simp [state_modifier, hk]
  · cases hk : maxFittingSuffix est (budget - est s) rest with
    | nil =>
      cases hl : rest.getLast? with
      | none => simp [state_modifier, hk, hl]
      | some last =>
        simp only [state_modifier, hk, hl]
        exact List.Sublist.cons₂ s (List.singleton_sublist.mpr (mem_of_getLast_opt hl))
    | cons k ks =>
      simp only [state_modifier, hk]
      exact List.Sublist.cons₂ s ((hk ▸ maxFittingSuffix_suffix est (budget - est s) rest).sublist)
  · cases hk : maxFittingSuffix est (budget - est s) rest with
    | nil => exact List.nil_suffix
    | cons k ks =>
      simp only [state_modifier, hk]
      exact List.suffix_cons s (k :: ks)
  · intro h
    have hrest : messagesCost est rest ≤ budget - est s := by
      simp only [messagesCost, List.map_cons, List.sum_cons] at h
      simp only [messagesCost]
      omega
    have hk := maxFittingSuffix_of_cost_le est (budget - est s) rest hrest
    cases rest with
    | nil => simp [state_modifier, hk]
    | cons m ms => simp [state_modifier, hk]

/-- Witness for C6: history `[3, 4, 5, 6]` with the identity estimator
and budget 10 — the trimmer keeps the first message and the maximal
fitting suffix `[6]`. -/
theorem state_modifier_trim_spec_witness :
    0 < 10 ∧
    ((state_modifier (fun n => n) 10 [3, 4, 5, 6]).head? = some 3 ∧
    List.Sublist (state_modifier (fun n => n) 10 [3, 4, 5, 6]) [3, 4, 5, 6] ∧
    maxFittingSuffix (fun n => n) (10 - 3) [4, 5, 6] <:+ [4, 5, 6] ∧
    messagesCost (fun n => n) (maxFittingSuffix (fun n => n) (10 - 3) [4, 5, 6]) ≤ 10 - 3 ∧
    (∀ t, t <:+ [4, 5, 6] → messagesCost (fun n => n) t ≤ 10 - 3 →
      t.length ≤ (maxFittingSuffix (fun n => n) (10 - 3) [4, 5, 6]).length) ∧
    maxFittingSuffix (fun n => n) (10 - 3) [4, 5, 6] <:+ state_modifier (fun n => n) 10 [3, 4, 5, 6] ∧
    (messagesCost (fun n => n) [3, 4, 5, 6] ≤ 10 →
      state_modifier (fun n => n) 10 [3, 4, 5, 6] = [3, 4, 5, 6])) :=
  ⟨by decide, state_modifier_trim_spec (fun n => n) 3 [4, 5, 6] 10 (by decide)⟩

/-- Claim C7: for a history of length at least 2 and a positive budget,
the trimmer returns at least two messages — the first message and the
single most recent message — even when those two together exceed the
budget. -/
theorem state_modifier_min_two {α : Type} (est : α → Nat) (s m : α)
    (rest : List α) (budget : Nat) (hb : 0 < budget) :
    2 ≤ (state_modifier est budget (s :: m :: rest)).length ∧
    (state_modifier est budget (s :: m :: rest)).head? = some s ∧
    (state_modifier est budget (s :: m :: rest)).getLast? =
      (s :: m :: rest).getLast? := by
  cases hk : maxFittingSuffix est (budget - est s) (m :: rest) with
  | nil =>
    obtain ⟨last, hl⟩ := Option.isSome_iff_exists.mp
      (List.getLast?_isSome.mpr (by simp : (m :: rest : List α) ≠ []))
    simp only [state_modifier, hk, hl]
    refine ⟨by simp, by simp, ?_⟩
    rw [List.getLast?_cons_cons, List.getLast?_cons_cons, hl]
    simp
  | cons k ks =>
    simp only [state_modifier, hk]
    refine ⟨by simp, by simp, ?_⟩
    have hsuf : (k :: ks : List α) <:+ m :: rest :=
      hk ▸ maxFittingSuffix_suffix est (budget - est s) (m :: rest)
    rw [List.getLast?_cons_cons, List.getLast?_cons_cons,
      getLast_opt_of_suffix hsuf (by simp)]

/-- Witness for C7: history `[2, 9, 9]` with identity estimator and
budget 1 — the two retained messages together cost 11, far above the
budget, yet both are kept. -/
theorem state_modifier_min_two_witness :
    0 < 1 ∧
    (2 ≤ (state_modifier (fun n => n) 1 [2, 9, 9]).length ∧
    (state_modifier (fun n => n) 1 [2, 9, 9]).head? = some 2 ∧
    (state_modifier (fun n => n) 1 [2, 9, 9]).getLast? = ([2, 9, 9] : List Nat).getLast?) :=
  ⟨by decide, state_modifier_min_two (fun n => n) 2 9 [9] 1 (by decide)⟩

/-! ## Depth balance -/

/-- Claim C8: for any wrapped work — nested scopes, sequencing, raising
leaves — the final `agent_depth` equals the initial depth: every
`_increment_agent_depth` on scope entry is matched by exactly one
`_decrement_agent_depth` on every exit path, including exceptional
ones. -/
theorem agent_depth_balanced (w : AgentWork) (d : Int) :
    (runAgentWork w d).2 = d := by
  induction w generalizing d with
  | leaf ok => rfl
  | scope body ih =>
    simp only [runAgentWork, _increment_agent_depth, _decrement_agent_depth, ih]
    omega
  | seq a b iha ihb =>
    simp only [runAgentWork]
    by_cases h : (runAgentWork a d).1 = true
    · rw [if_pos h, ihb, iha]
    · rw [if_neg h]
      exact iha d

/-! ## Theorems about the expert tooling -/

/-- Claim C9, evaluated at the failing input: after
`emit_expert_context "important context"` the store holds the context,
and `ask_expert` does clear both lists before querying (they are empty
when it returns) — but because the source clears the store *before*
building `query_parts`, the emitted context and the
"# Additional Context" section are absent from the query, although the
question itself is present. This contradicts the claim (and the tools'
own docstrings, which promise the expert sees previously emitted
context). -/
theorem ask_expert_drops_emitted_context :
    (emit_expert_context ⟨[], []⟩ "important context").1.text = ["important context"] ∧
    (ask_expert_query (emit_expert_context ⟨[], []⟩ "important context").1
      "What is X?" "" "" "" "").2 = ⟨[], []⟩ ∧
    containsSub (ask_expert_query (emit_expert_context ⟨[], []⟩ "important context").1
      "What is X?" "" "" "" "").1 "important context" = false ∧
    containsSub (ask_expert_query (emit_expert_context ⟨[], []⟩ "important context").1
      "What is X?" "" "" "" "").1 "# Additional Context" = false ∧
    containsSub (ask_expert_query (emit_expert_context ⟨[], []⟩ "important context").1
      "What is X?" "" "" "" "").1 "# Question" = true := by
  refine ⟨rfl, rfl, by decide, by decide, by decide⟩

/-- One file's `file_content` is a prefix of its lines of length
`max_lines - cnt`, followed by the truncation notice exactly when the
file had more lines than that. -/
theorem fileContent_eq (max_lines cnt : Nat) (lines : List String) :
    fileContent max_lines cnt lines =
      lines.take (max_lines - cnt) ++
        (if max_lines - cnt < lines.length then [truncationNotice max_lines]
         else []) := by
  induction lines generalizing cnt with
  | nil => simp [fileContent]
  | cons l rest ih =>
    by_cases h : max_lines ≤ cnt
    · rw [fileContent, if_pos h]
      have h0 : max_lines - cnt = 0 := by omega
      simp [h0]
    · rw [fileContent, if_neg h, ih (cnt + 1)]
      have h1 : max_lines - cnt = (max_lines - (cnt + 1)) + 1 := by omega
      have hiff : (max_lines - (cnt + 1) < rest.length) ↔
          ((max_lines - (cnt + 1)) + 1 < (l :: rest).length) := by
        simp only [List.length_cons]
        omega
      rw [h1, List.take_succ_cons]
      by_cases h2 : max_lines - (cnt + 1) < rest.length
      · rw [if_pos h2, if_pos (hiff.mp h2)]
        simp
      · rw [if_neg h2, if_neg (fun hc => h2 (hiff.mpr hc))]
        simp

/-- The length of one file's `file_content`: the kept content lines plus
one for the truncation notice when it was cut short. -/
theorem fileContent_length (max_lines cnt : Nat) (lines : List String) :
    (fileContent max_lines cnt lines).length =
      min (max_lines - cnt) lines.length +
        (if max_lines - cnt < lines.length then 1 else 0) := by
  rw [fileContent_eq]
  by_cases h : max_lines - cnt < lines.length
  · simp [h, List.length_take]
  · simp [h, List.length_take]

/-- The total number of content lines kept never exceeds the budget left
in `max_lines` below the running `total_lines` counter. -/
theorem keptContentLines_le (fs : String → Option (List String))
    (max_lines : Nat) (total : Nat) (paths : List String) :
    keptContentLines fs max_lines total paths ≤ max_lines - total := by
  induction paths generalizing total with
  | nil => simp [keptContentLines]
  | cons p rest ih =>
    rw [keptContentLines]
    cases hf : fs p with
    | none => exact ih total
    | some lines =>
      simp only []
      by_cases he : (fileContent max_lines total lines).isEmpty
      · rw [if_pos he]
        exact ih total
      · rw [if_neg he]
        have hk : min lines.length (max_lines - total) ≤ max_lines - total :=
          Nat.min_le_right _ _
        have hfc : min lines.length (max_lines - total) ≤
            (fileContent max_lines total lines).length := by
          rw [fileContent_length]
          have := Nat.min_comm lines.length (max_lines - total)
          omega
        have hrec := ih (total + (fileContent max_lines total lines).length)
        omega

/-- Claim C10: `read_files_with_limit` keeps at most `max_lines` lines
from the files' contents in total. Each readable file contributes the
prefix of its lines that fits below `max_lines`, with a truncation
notice when it is cut short; once the running counter has reached
`max_lines`, a non-empty file contributes the notice only and no content
lines; a path the filesystem cannot read is skipped, contributing
nothing; and the kept content-line count across all files is bounded by
`max_lines`. -/
theorem read_files_with_limit_spec (fs : String → Option (List String))
    (max_lines cnt total : Nat) (lines : List String) (p : String)
    (rest paths : List String) (hmiss : fs p = none) :
    read_files_with_limit fs paths max_lines =
      String.join (readFilesLoop fs max_lines 0 paths) ∧
    fileContent max_lines cnt lines =
      lines.take (max_lines - cnt) ++
        (if max_lines - cnt < lines.length then [truncationNotice max_lines]
         else []) ∧
    (max_lines ≤ cnt → lines ≠ [] →
      fileContent max_lines cnt lines = [truncationNotice max_lines]) ∧
    readFilesLoop fs max_lines total (p :: rest) =
      readFilesLoop fs max_lines total rest ∧
    keptContentLines fs max_lines 0 paths ≤ max_lines := by
  refine ⟨rfl, fileContent_eq max_lines cnt lines, ?_, ?_, ?_⟩
  · intro hle hne
    rw [fileContent_eq]
    have h0 : max_lines - cnt = 0 := by omega
    rw [h0]
    cases lines with
    | nil => exact absurd rfl hne
    | cons l ls => simp
  · rw [readFilesLoop, hmiss]
  · have := keptContentLines_le fs max_lines 0 paths
    omega

/-- Witness for C10: the demo filesystem with `max_lines = 4` — file
`a.txt` contributes its 3 lines, the missing path is skipped, `b.txt` is
cut to 1 content line plus the notice, and 4 content lines are kept in
total. -/
theorem read_files_with_limit_spec_witness :
    demoFS "missing.txt" = none ∧
    (read_files_with_limit demoFS ["a.txt", "missing.txt", "b.txt"] 4 =
      String.join (readFilesLoop demoFS 4 0 ["a.txt", "missing.txt", "b.txt"]) ∧
    fileContent 4 5 ["x\n"] =
      (["x\n"] : List String).take (4 - 5) ++
        (if 4 - 5 < (["x\n"] : List String).length then [truncationNotice 4]
         else []) ∧
    (4 ≤ 5 → (["x\n"] : List String) ≠ [] →
      fileContent 4 5 ["x\n"] = [truncationNotice 4]) ∧
    readFilesLoop demoFS 4 0 ["missing.txt", "b.txt"] =
      readFilesLoop demoFS 4 0 ["b.txt"] ∧
    keptContentLines demoFS 4 0 ["a.txt", "missing.txt", "b.txt"] ≤ 4) :=
  ⟨by decide,
    read_files_with_limit_spec demoFS 4 5 0 ["x\n"] "missing.txt" ["b.txt"]
      ["a.txt", "missing.txt", "b.txt"] (by decide)⟩

end RAAid
